import Mathlib

/-!
A shallow embedding of `finance_manager.py` (class `PersonalFinanceManager`).

Modelling conventions:
* the SQLite database is a `Db` value: lists of user, transaction and budget
  rows, plus the AUTOINCREMENT counter for transaction ids (budget ids are
  never read by the program, so the budget relation is modelled without its
  surrogate `id` column; its uniqueness key `(user_id, category, month, year)`
  is what `INSERT OR REPLACE` and the lookups use);
* Python `float` amounts are modelled as `ℚ` (exact accumulation);
* SQL text comparison (`date >= ?`, `date <= ?`) and Python string comparison
  are byte/codepoint lexicographic; both are modelled by `strLe`;
* `datetime.datetime.now()` is passed in explicitly as a `Now` value, and
  `strftime` is modelled by the zero-padded formatting functions below;
* each method that mutates the database returns the printed outcome
  (`Except Err Unit`, one `Err` constructor per distinct failure message)
  together with the database after the call; a failure leaves the database
  component unchanged, matching the Python code which returns `False`
  before touching the tables (or after a zero-row match, with no commit);
* `self.current_user` is passed explicitly as the `user` argument: every
  claim below is about an authenticated session.
-/

namespace Finance

/-- Lexicographic order on character lists by codepoint, as used by Python
string comparison and by SQLite's default (binary) text collation. -/
def charListLe : List Char → List Char → Bool
  | [], _ => true
  | _ :: _, [] => false
  | a :: as, b :: bs =>
    if a.toNat < b.toNat then true
    else if b.toNat < a.toNat then false
    else charListLe as bs

/-- `strLe a b` models `a <= b` on strings in Python / SQLite text order. -/
def strLe (a b : String) : Bool := charListLe a.data b.data

/-- Two-digit zero padding, as in `strftime` fields `%m %d %H %M %S`. -/
def pad2 (n : Nat) : String := if n < 10 then "0" ++ toString n else toString n

/-- Four-digit zero padding, as in `strftime` field `%Y`. -/
def pad4 (n : Nat) : String :=
  if n < 10 then "000" ++ toString n
  else if n < 100 then "00" ++ toString n
  else if n < 1000 then "0" ++ toString n
  else toString n

/-- The value of `datetime.datetime.now()`, to the second. -/
structure Now where
  year : Nat
  month : Nat
  day : Nat
  hour : Nat
  minute : Nat
  second : Nat
  deriving Repr, DecidableEq

/-- `now.strftime("%Y-%m-%d")`. -/
def dateStr (t : Now) : String :=
  pad4 t.year ++ "-" ++ pad2 t.month ++ "-" ++ pad2 t.day

/-- `now.strftime("%Y-%m-%d %H:%M:%S")`. -/
def dateTimeStr (t : Now) : String :=
  dateStr t ++ " " ++ pad2 t.hour ++ ":" ++ pad2 t.minute ++ ":" ++ pad2 t.second

/-- `now.replace(day=1).strftime("%Y-%m-%d")`. -/
def monthStartStr (t : Now) : String :=
  pad4 t.year ++ "-" ++ pad2 t.month ++ "-01"

/-- `now.replace(month=1, day=1).strftime("%Y-%m-%d")`. -/
def yearStartStr (t : Now) : String :=
  pad4 t.year ++ "-01-01"

/-- A row of the `users` table. -/
structure UserRow where
  id : Nat
  username : String
  password : String
  deriving Repr, DecidableEq

/-- A row of the `transactions` table. -/
structure Txn where
  id : Nat
  user_id : Nat
  type : String
  amount : ℚ
  category : String
  description : String
  date : String
  deriving Repr, DecidableEq

/-- A row of the `budgets` table (the unread surrogate `id` column omitted). -/
structure Budget where
  user_id : Nat
  category : String
  amount : ℚ
  month : Nat
  year : Nat
  deriving Repr, DecidableEq

/-- The database state. -/
structure Db where
  users : List UserRow
  transactions : List Txn
  budgets : List Budget
  nextTxnId : Nat
  deriving Repr

/-- The record built by `get_transactions` for each fetched row
(`{'id': .., 'type': .., 'amount': .., 'category': .., 'description': .., 'date': ..}`). -/
structure TxnRec where
  id : Nat
  type : String
  amount : ℚ
  category : String
  description : String
  date : String
  deriving Repr, DecidableEq

/-- Projection of a stored transaction row to the fetched record. -/
def Txn.toRec (t : Txn) : TxnRec :=
  ⟨t.id, t.type, t.amount, t.category, t.description, t.date⟩

/-- The record built by `get_budgets` for each fetched row. -/
structure BudgetRec where
  category : String
  amount : ℚ
  deriving Repr, DecidableEq

/-- One `Err` constructor per distinct failure message printed by the code. -/
inductive Err where
  | invalidCredentials
  | duplicateUser
  | invalidKind
  | invalidAmount
  | noOpUpdate
  | notFound
  | invalidPeriod
  | ownershipMismatch
  deriving Repr, DecidableEq

/-- Python truthiness of an optional string argument (`if start_date:` skips
both `None` and the empty string). -/
def presentStr : Option String → Option String
  | none => none
  | some s => if s = "" then none else some s

/-- The WHERE clause built by `get_transactions`: always `user_id = ?`, plus
`date >= ?`, `date <= ?`, `category = ?`, `type = ?` for each truthy filter. -/
def txnMatches (user : Nat) (sd ed cat tt : Option String) (t : Txn) : Bool :=
  t.user_id == user
  && (match presentStr sd with | none => true | some s => strLe s t.date)
  && (match presentStr ed with | none => true | some e => strLe t.date e)
  && (match presentStr cat with | none => true | some c => t.category == c)
  && (match presentStr tt with | none => true | some k => t.type == k)

/-- Insertion step of the model of `ORDER BY date DESC`. -/
def insertDateDesc (t : Txn) : List Txn → List Txn
  | [] => [t]
  | u :: us => if strLe u.date t.date then t :: u :: us else u :: insertDateDesc t us

/-- `ORDER BY date DESC`, modelled as an insertion sort by descending date. -/
def sortDateDesc : List Txn → List Txn
  | [] => []
  | t :: ts => insertDateDesc t (sortDateDesc ts)

/-- `get_transactions(start_date, end_date, category, transaction_type)`:
filter the current user's rows, order by date descending, build the records. -/
def get_transactions (db : Db) (user : Nat) (sd ed cat tt : Option String) :
    List TxnRec :=
  (sortDateDesc (db.transactions.filter (txnMatches user sd ed cat tt))).map Txn.toRec

/-- The warning payload printed by `check_budget`
(`Budget: $.., Spent: $..`). -/
structure Warning where
  budget : ℚ
  spent : ℚ
  deriving Repr, DecidableEq

/-- `check_budget(category, amount)`: look up this month's budget row for the
category; if absent return no warning; otherwise sum the expense transactions
of the category in `[now.replace(day=1), now]` (date-only string bounds) and
warn when the total strictly exceeds the budget ceiling.  The returned value
models both the `bool` result (`isSome`) and the printed payload.  Note the
`amount` parameter is not used, exactly as in the source. -/
def check_budget (db : Db) (user : Nat) (category : String) (amount : ℚ)
    (now : Now) : Option Warning :=
  match db.budgets.find? (fun b =>
      b.user_id == user && b.category == category
        && b.month == now.month && b.year == now.year) with
  | none => none
  | some b =>
    let expenses := get_transactions db user (some (monthStartStr now))
      (some (dateStr now)) (some category) (some "expense")
    let total_spent := (expenses.map TxnRec.amount).sum
    if b.amount < total_spent then some ⟨b.amount, total_spent⟩ else none

/-- `login(username, password)`: succeed with the matched row's id when a row
matches both the username and the digest of the password; otherwise fail with
the one `Invalid username or password.` outcome.  The digest function
(`hash_password`, SHA-256 hex) is passed in as an abstract `hashPassword`. -/
def login (db : Db) (hashPassword : String → String)
    (username password : String) : Except Err Nat :=
  match db.users.find? (fun u =>
      u.username == username && u.password == hashPassword password) with
  | some u => .ok u.id
  | none => .error .invalidCredentials

/-- `add_transaction(transaction_type, amount, category, description)`:
validate the kind, then the amount; on success stamp the row with
`now.strftime("%Y-%m-%d %H:%M:%S")`, insert it, then run `check_budget`
(whose warning is returned alongside, and which cannot block the insert). -/
def add_transaction (db : Db) (user : Nat) (transaction_type : String)
    (amount : ℚ) (category description : String) (now : Now) :
    Except Err Unit × Option Warning × Db :=
  if ¬ (transaction_type = "income" ∨ transaction_type = "expense") then
    (.error .invalidKind, none, db)
  else if amount ≤ 0 then
    (.error .invalidAmount, none, db)
  else
    let db' : Db :=
      { db with
        transactions := db.transactions ++
          [⟨db.nextTxnId, user, transaction_type, amount, category,
            description, dateTimeStr now⟩],
        nextTxnId := db.nextTxnId + 1 }
    (.ok (), check_budget db' user category amount now, db')

/-- The `UPDATE transactions SET ... WHERE id = ? AND user_id = ?` statement,
with one `SET` clause per supplied field, plus the `rowcount == 0` check. -/
def update_apply (db : Db) (user tid : Nat) (amount : Option ℚ)
    (category description : Option String) : Except Err Unit × Db :=
  if db.transactions.any (fun t => t.id == tid && t.user_id == user) then
    (.ok (),
      { db with
        transactions := db.transactions.map (fun t =>
          if t.id == tid && t.user_id == user then
            { t with
              amount := amount.getD t.amount,
              category := category.getD t.category,
              description := description.getD t.description }
          else t) })
  else (.error .notFound, db)

/-- `update_transaction(transaction_id, amount, category, description)`:
a supplied amount must be positive (checked before anything else); at least
one field must be supplied; then the scoped UPDATE runs and a zero-row match
is the not-found failure. -/
def update_transaction (db : Db) (user tid : Nat) (amount : Option ℚ)
    (category description : Option String) : Except Err Unit × Db :=
  match amount with
  | some a =>
    if a ≤ 0 then (.error .invalidAmount, db)
    else update_apply db user tid (some a) category description
  | none =>
    match category, description with
    | none, none => (.error .noOpUpdate, db)
    | _, _ => update_apply db user tid none category description

/-- `delete_transaction(transaction_id)`:
`DELETE FROM transactions WHERE id = ? AND user_id = ?`, with the
`rowcount == 0` check reported as the not-found failure. -/
def delete_transaction (db : Db) (user tid : Nat) : Except Err Unit × Db :=
  if db.transactions.any (fun t => t.id == tid && t.user_id == user) then
    (.ok (),
      { db with
        transactions :=
          db.transactions.filter (fun t => !(t.id == tid && t.user_id == user)) })
  else (.error .notFound, db)

/-- `set_budget(category, amount)`: positive-amount check, then
`INSERT OR REPLACE` keyed on `(user_id, category, month, year)` for the
current month and year. -/
def set_budget (db : Db) (user : Nat) (category : String) (amount : ℚ)
    (now : Now) : Except Err Unit × Db :=
  if amount ≤ 0 then (.error .invalidAmount, db)
  else
    (.ok (),
      { db with
        budgets := db.budgets.filter (fun b =>
            !(b.user_id == user && b.category == category
              && b.month == now.month && b.year == now.year)) ++
          [⟨user, category, amount, now.month, now.year⟩] })

/-- `get_budgets()`: the current user's budget rows for the current month
and year, as `{'category': .., 'amount': ..}` records. -/
def get_budgets (db : Db) (user : Nat) (now : Now) : List BudgetRec :=
  (db.budgets.filter (fun b =>
      b.user_id == user && b.month == now.month && b.year == now.year)).map
    (fun b => ⟨b.category, b.amount⟩)

/-- One step of the aggregation loop of `generate_report`: income amounts
into `total_income`, every other row into `total_expenses` and into its
category's entry of the `category_expenses` dict. -/
def bumpCat (m : List (String × ℚ)) (c : String) (a : ℚ) : List (String × ℚ) :=
  match m with
  | [] => [(c, a)]
  | (k, v) :: rest => if k = c then (k, v + a) :: rest else (k, v) :: bumpCat rest c a

/-- The `for trans in transactions:` loop of `generate_report`, accumulating
`(total_income, total_expenses, category_expenses)` left to right. -/
def reportFold : List TxnRec → ℚ × ℚ × List (String × ℚ) → ℚ × ℚ × List (String × ℚ)
  | [], acc => acc
  | t :: ts, (inc, exp, cats) =>
    if t.type = "income" then reportFold ts (inc + t.amount, exp, cats)
    else reportFold ts (inc, exp + t.amount, bumpCat cats t.category t.amount)

/-- The dictionary returned by `generate_report`
(`category_expenses` modelled as an insertion-ordered association list). -/
structure Report where
  period : String
  start_date : String
  end_date : String
  total_income : ℚ
  total_expenses : ℚ
  savings : ℚ
  category_expenses : List (String × ℚ)
  deriving Repr, DecidableEq

/-- `generate_report(period)`: the monthly window is
`[now.replace(day=1), now]`, the yearly window `[now.replace(month=1, day=1), now]`,
both as date-only strings handed to `get_transactions`; any other period is
rejected (`none` models the `Invalid period` empty-dict return). -/
def generate_report (db : Db) (user : Nat) (period : String) (now : Now) :
    Option Report :=
  if period = "monthly" ∨ period = "yearly" then
    let start_date := if period = "monthly" then monthStartStr now else yearStartStr now
    let end_date := dateStr now
    let txns := get_transactions db user (some start_date) (some end_date) none none
    let acc := reportFold txns (0, 0, [])
    some
      { period := period
        start_date := start_date
        end_date := end_date
        total_income := acc.1
        total_expenses := acc.2.1
        savings := acc.1 - acc.2.1
        category_expenses := acc.2.2 }
  else none

/-- The JSON document written by `backup_data`. -/
structure BackupDoc where
  user_id : Nat
  backup_date : String
  transactions : List TxnRec
  budgets : List BudgetRec
  deriving Repr, DecidableEq

/-- `backup_data(backup_file)`: a pure snapshot of the current user's
unfiltered transactions and current-month budgets. -/
def backup_data (db : Db) (user : Nat) (now : Now) : BackupDoc :=
  { user_id := user
    backup_date := dateTimeStr now
    transactions := get_transactions db user none none none none
    budgets := get_budgets db user now }

/-- The restore insertion loop for transactions: each backed-up record is
inserted for `user` with a fresh AUTOINCREMENT id, keeping its
type/amount/category/description/date fields.  Returns the new rows and the
next id. -/
def insertRecs (user : Nat) (nid : Nat) : List TxnRec → List Txn × Nat
  | [] => ([], nid)
  | r :: rs =>
    let rest := insertRecs user (nid + 1) rs
    (⟨nid, user, r.type, r.amount, r.category, r.description, r.date⟩ :: rest.1,
      rest.2)

/-- `restore_data(backup_file)`: reject a document whose `user_id` differs
from the session user; otherwise delete all of the user's transactions and
budgets and re-insert the document's, stamping every restored budget with the
current month and year. -/
def restore_data (db : Db) (user : Nat) (doc : BackupDoc) (now : Now) :
    Except Err Unit × Db :=
  if doc.user_id ≠ user then (.error .ownershipMismatch, db)
  else
    let kept := insertRecs user db.nextTxnId doc.transactions
    (.ok (),
      { db with
        transactions := db.transactions.filter (fun t => !(t.user_id == user)) ++ kept.1
        budgets := db.budgets.filter (fun b => !(b.user_id == user)) ++
          doc.budgets.map (fun b => ⟨user, b.category, b.amount, now.month, now.year⟩)
        nextTxnId := kept.2 })

/-- The per-transaction fields compared by the round-trip claims: everything
except the surrogate id and owner columns. -/
structure TxnData where
  type : String
  amount : ℚ
  category : String
  description : String
  date : String
  deriving Repr, DecidableEq

/-- Field projection of a stored row. -/
def Txn.fields (t : Txn) : TxnData :=
  ⟨t.type, t.amount, t.category, t.description, t.date⟩

/-- Field projection of a fetched record. -/
def TxnRec.fields (r : TxnRec) : TxnData :=
  ⟨r.type, r.amount, r.category, r.description, r.date⟩

/-! ### Helper lemmas -/

theorem insertDateDesc_perm (t : Txn) (l : List Txn) :
    List.Perm (insertDateDesc t l) (t :: l) := by
  induction l with
  | nil => exact List.Perm.refl _
  | cons u us ih =>
    unfold insertDateDesc
    split
    · exact List.Perm.refl _
    · exact (ih.cons u).trans (List.Perm.swap t u us)

theorem sortDateDesc_perm (l : List Txn) : List.Perm (sortDateDesc l) l := by
  induction l with
  | nil => exact List.Perm.refl _
  | cons t ts ih =>
    exact (insertDateDesc_perm t (sortDateDesc ts)).trans (ih.cons t)

theorem bumpCat_sum (m : List (String × ℚ)) (c : String) (a : ℚ) :
    ((bumpCat m c a).map Prod.snd).sum = (m.map Prod.snd).sum + a := by
  induction m with
  | nil => simp [bumpCat]
  | cons kv rest ih =>
    obtain ⟨k, v⟩ := kv
    by_cases h : k = c
    · simp [bumpCat, h]
      ring
    · simp [bumpCat, h, ih]
      ring

theorem reportFold_income (l : List TxnRec) (inc exp : ℚ) (cats : List (String × ℚ)) :
    (reportFold l (inc, exp, cats)).1 =
      inc + ((l.filter (fun t => t.type == "income")).map TxnRec.amount).sum := by
  induction l generalizing inc exp cats with
  | nil => simp [reportFold]
  | cons t ts ih =>
    by_cases h : t.type = "income"
    · simp [reportFold, h, ih, List.filter_cons]
      ring
    · simp [reportFold, h, ih, List.filter_cons]

theorem reportFold_expense (l : List TxnRec) (inc exp : ℚ) (cats : List (String × ℚ)) :
    (reportFold l (inc, exp, cats)).2.1 =
      exp + ((l.filter (fun t => !(t.type == "income"))).map TxnRec.amount).sum := by
  induction l generalizing inc exp cats with
  | nil => simp [reportFold]
  | cons t ts ih =>
    by_cases h : t.type = "income"
    · simp [reportFold, h, ih, List.filter_cons]
    · simp [reportFold, h, ih, List.filter_cons]
      ring

theorem reportFold_cats (l : List TxnRec) (inc exp : ℚ) (cats : List (String × ℚ)) :
    ((reportFold l (inc, exp, cats)).2.2.map Prod.snd).sum =
      (cats.map Prod.snd).sum +
        ((l.filter (fun t => !(t.type == "income"))).map TxnRec.amount).sum := by
  induction l generalizing inc exp cats with
  | nil => simp [reportFold]
  | cons t ts ih =>
    by_cases h : t.type = "income"
    · simp [reportFold, h, ih, List.filter_cons]
    · simp [reportFold, h, ih, List.filter_cons, bumpCat_sum]
      ring

theorem get_transactions_kind_sum (db : Db) (user : Nat)
    (sd ed cat tt : Option String) (pk : String → Bool) :
    (((get_transactions db user sd ed cat tt).filter
        (fun r => pk r.type)).map TxnRec.amount).sum =
      (((db.transactions.filter (txnMatches user sd ed cat tt)).filter
          (fun t => pk t.type)).map Txn.amount).sum := by
  unfold get_transactions
  rw [((((sortDateDesc_perm
      (db.transactions.filter (txnMatches user sd ed cat tt))).map
      Txn.toRec).filter (fun r => pk r.type)).map TxnRec.amount).sum_eq]
  rw [List.filter_map, List.map_map]
  rfl

theorem get_transactions_length (db : Db) (user : Nat)
    (sd ed cat tt : Option String) :
    (get_transactions db user sd ed cat tt).length =
      (db.transactions.filter (txnMatches user sd ed cat tt)).length := by
  unfold get_transactions
  rw [List.length_map, (sortDateDesc_perm _).length_eq]

theorem mem_get_transactions (t : Txn) (db : Db) (user : Nat)
    (sd ed cat tt : Option String) (ht : t ∈ db.transactions)
    (hm : txnMatches user sd ed cat tt t = true) :
    t.toRec ∈ get_transactions db user sd ed cat tt := by
  unfold get_transactions
  exact List.mem_map_of_mem Txn.toRec
    (((sortDateDesc_perm _).mem_iff).mpr (List.mem_filter.mpr ⟨ht, hm⟩))

theorem of_mem_get_transactions {r : TxnRec} (db : Db) (user : Nat)
    (sd ed cat tt : Option String)
    (hr : r ∈ get_transactions db user sd ed cat tt) :
    ∃ t ∈ db.transactions, txnMatches user sd ed cat tt t = true ∧ t.toRec = r := by
  unfold get_transactions at hr
  obtain ⟨t, ht, rfl⟩ := List.mem_map.mp hr
  have := ((sortDateDesc_perm _).mem_iff).mp ht
  obtain ⟨htm, hmatch⟩ := List.mem_filter.mp this
  exact ⟨t, htm, hmatch, rfl⟩

/-! ### Claims -/

/-- C10: `check_budget(category, amount)` — both the exceeded outcome and the
`{budget, spent}` payload — does not depend on its `amount` argument: for a
fixed database, category and clock, every two amounts give the same result,
because the spent total is recomputed from the stored expense rows only. -/
theorem check_budget_amount_irrelevant (db : Db) (user : Nat)
    (category : String) (a b : ℚ) (now : Now) :
    check_budget db user category a now = check_budget db user category b now := rfl

/-- The state of C1's failing scenario: a budget of 100 for "food" in the
current month (October 2026) and two "food" expenses of 60 and 50 added
today (2026-10-12), stamped the way `add_transaction` stamps them. -/
def dbToday : Db :=
  { users := [⟨1, "alice", "h"⟩]
    transactions :=
      [⟨1, 1, "expense", 60, "food", "", "2026-10-12 09:00:00"⟩,
       ⟨2, 1, "expense", 50, "food", "", "2026-10-12 09:30:00"⟩]
    budgets := [⟨1, "food", 100, 10, 2026⟩]
    nextTxnId := 3 }

/-- The clock at C1's failing check: later the same day. -/
def nowToday : Now := ⟨2026, 10, 12, 10, 0, 0⟩

/-- C1 (evidence of the divergence): with a budget of 100 for "food" this
month and the two "food" expenses 60 and 50 added earlier the same day —
110 > 100 spent month-to-date — `check_budget` still reports no warning: its
end bound is the date-only string "2026-10-12", which is a strict prefix of
(hence lexicographically below) every `"2026-10-12 HH:MM:SS"` stamp, so the
`date <= ?` clause drops every transaction added on the current day. -/
theorem check_budget_misses_today :
    check_budget dbToday 1 "food" 50 nowToday = none ∧
    ((dbToday.transactions.filter (fun t =>
        t.user_id == 1 && t.type == "expense" && t.category == "food")).map
      Txn.amount).sum = 110 ∧
    dbToday.transactions.all
      (fun t => strLe (monthStartStr nowToday) t.date) = true ∧
    dbToday.budgets = [⟨1, "food", 100, 10, 2026⟩] := by
  refine ⟨rfl, ?_, rfl, rfl⟩
  norm_num [dbToday]

/-- C3: every report produced by `generate_report` satisfies
`total_income - total_expenses = savings` exactly, and the values of
`category_expenses` sum exactly to `total_expenses` (amounts are exact
rationals in this model). -/
theorem report_invariant (db : Db) (user : Nat) (period : String) (now : Now)
    (r : Report) (h : generate_report db user period now = some r) :
    r.savings = r.total_income - r.total_expenses ∧
    (r.category_expenses.map Prod.snd).sum = r.total_expenses := by
  unfold generate_report at h
  split at h
  · cases Option.some.inj h
    refine ⟨rfl, ?_⟩
    show ((reportFold _ (0, 0, [])).2.2.map Prod.snd).sum = (reportFold _ (0, 0, [])).2.1
    rw [reportFold_cats, reportFold_expense]
    simp
  · exact absurd h (by simp)

/-- A small database for the closed-instance checks of several claims. -/
def dbW : Db :=
  { users := [⟨1, "alice", "ha"⟩, ⟨2, "bob", "hb"⟩]
    transactions :=
      [⟨1, 1, "income", 1000, "salary", "sept pay", "2026-09-30 12:00:00"⟩,
       ⟨2, 1, "expense", 60, "food", "", "2026-10-05 09:00:00"⟩,
       ⟨3, 1, "expense", 50, "food", "lunch", "2026-10-07 09:30:00"⟩,
       ⟨4, 1, "income", 900, "salary", "oct pay", "2026-10-02 08:00:00"⟩,
       ⟨5, 2, "expense", 7, "books", "", "2026-10-03 10:00:00"⟩]
    budgets := [⟨1, "food", 100, 10, 2026⟩, ⟨2, "books", 30, 10, 2026⟩]
    nextTxnId := 6 }

/-- The clock for the closed-instance checks. -/
def nowW : Now := ⟨2026, 10, 12, 10, 30, 0⟩

/-- The monthly report of `dbW`, as the fallback-free value computed by the
model. -/
def rW : Report :=
  (generate_report dbW 1 "monthly" nowW).getD ⟨"", "", "", 0, 0, 0, []⟩

/-- Closed instance of C3 at the report of `dbW`. -/
theorem report_invariant_witness :
    rW.savings = rW.total_income - rW.total_expenses ∧
    (rW.category_expenses.map Prod.snd).sum = rW.total_expenses :=
  report_invariant dbW 1 "monthly" nowW rW rfl

theorem str_append_ne_empty_right (a b : String) (hb : b.length ≠ 0) :
    a ++ b ≠ "" := by
  intro h
  have h2 : (a ++ b).length = 0 := by rw [h]; rfl
  rw [String.length_append] at h2
  omega

theorem str_append_ne_empty_left (a b : String) (ha : a.length ≠ 0) :
    a ++ b ≠ "" := by
  intro h
  have h2 : (a ++ b).length = 0 := by rw [h]; rfl
  rw [String.length_append] at h2
  omega

theorem monthStartStr_ne_empty (t : Now) : monthStartStr t ≠ "" :=
  str_append_ne_empty_right _ _ (by decide)

theorem yearStartStr_ne_empty (t : Now) : yearStartStr t ≠ "" :=
  str_append_ne_empty_right _ _ (by decide)

theorem dateStr_ne_empty (t : Now) : dateStr t ≠ "" := by
  apply str_append_ne_empty_left
  rw [String.length_append]
  have h1 : ("-" : String).length = 1 := rfl
  rw [h1]
  omega

theorem txnMatches_some_dates (user : Nat) (s e : String) (hs : s ≠ "")
    (he : e ≠ "") (t : Txn) :
    txnMatches user (some s) (some e) none none t =
      (t.user_id == user && strLe s t.date && strLe t.date e) := by
  simp [txnMatches, presentStr, hs, he]

theorem txnMatches_no_filters (user : Nat) (t : Txn) :
    txnMatches user none none none none t = (t.user_id == user) := by
  simp [txnMatches, presentStr]

theorem report_window_sum (db : Db) (user : Nat) (s e : String)
    (hs : s ≠ "") (he : e ≠ "") (pk : String → Bool) :
    (((get_transactions db user (some s) (some e) none none).filter
        (fun r => pk r.type)).map TxnRec.amount).sum =
      ((db.transactions.filter (fun t =>
          t.user_id == user && strLe s t.date && strLe t.date e
            && pk t.type)).map Txn.amount).sum := by
  rw [get_transactions_kind_sum, List.filter_filter]
  have he2 : db.transactions.filter
      (fun t => pk t.type && txnMatches user (some s) (some e) none none t) =
      db.transactions.filter (fun t =>
        t.user_id == user && strLe s t.date && strLe t.date e && pk t.type) :=
    List.filter_congr (fun t _ => by
      rw [txnMatches_some_dates user s e hs he, Bool.and_comm])
  rw [he2]



theorem generate_report_window (db : Db) (user : Nat) (now : Now) :
    (∃ r, generate_report db user "monthly" now = some r ∧
      r.start_date = monthStartStr now ∧ r.end_date = dateStr now ∧
      r.total_income = ((db.transactions.filter (fun t =>
          t.user_id == user && strLe (monthStartStr now) t.date
            && strLe t.date (dateStr now) && t.type == "income")).map
        Txn.amount).sum ∧
      r.total_expenses = ((db.transactions.filter (fun t =>
          t.user_id == user && strLe (monthStartStr now) t.date
            && strLe t.date (dateStr now) && !(t.type == "income"))).map
        Txn.amount).sum) ∧
    (∃ r, generate_report db user "yearly" now = some r ∧
      r.start_date = yearStartStr now ∧ r.end_date = dateStr now ∧
      r.total_income = ((db.transactions.filter (fun t =>
          t.user_id == user && strLe (yearStartStr now) t.date
            && strLe t.date (dateStr now) && t.type == "income")).map
        Txn.amount).sum ∧
      r.total_expenses = ((db.transactions.filter (fun t =>
          t.user_id == user && strLe (yearStartStr now) t.date
            && strLe t.date (dateStr now) && !(t.type == "income"))).map
        Txn.amount).sum) ∧
    (∀ period, period ≠ "monthly" → period ≠ "yearly" →
      generate_report db user period now = none) := by
  refine ⟨⟨_, rfl, rfl, rfl, ?_, ?_⟩, ⟨_, rfl, rfl, rfl, ?_, ?_⟩, ?_⟩
  · show (reportFold _ (0, 0, [])).1 = _
    rw [reportFold_income, zero_add]
    exact report_window_sum db user _ _ (monthStartStr_ne_empty now)
      (dateStr_ne_empty now) (fun k => k == "income")
  · show (reportFold _ (0, 0, [])).2.1 = _
    rw [reportFold_expense, zero_add]
    exact report_window_sum db user _ _ (monthStartStr_ne_empty now)
      (dateStr_ne_empty now) (fun k => !(k == "income"))
  · show (reportFold _ (0, 0, [])).1 = _
    rw [reportFold_income, zero_add]
    exact report_window_sum db user _ _ (yearStartStr_ne_empty now)
      (dateStr_ne_empty now) (fun k => k == "income")
  · show (reportFold _ (0, 0, [])).2.1 = _
    rw [reportFold_expense, zero_add]
    exact report_window_sum db user _ _ (yearStartStr_ne_empty now)
      (dateStr_ne_empty now) (fun k => !(k == "income"))
  · intro period h1 h2
    simp [generate_report, h1, h2]

/-- Closed instance of the invalid-period case of C2's theorem. -/
theorem generate_report_window_witness :
    generate_report dbW 1 "weekly" nowW = none :=
  (generate_report_window dbW 1 nowW).2.2 "weekly" (by decide) (by decide)

/-- C7: `add_transaction` rejects an unknown kind with the invalid-kind
outcome and a non-positive amount with the invalid-amount outcome, storing
nothing in either case; for every valid tuple it succeeds — whatever the
budget check returns, which can only produce the warning component `w` —
and an unfiltered `get_transactions` afterwards contains a record with
exactly the supplied kind, amount, category and description (stamped with
the current time) and has grown by exactly one. -/
theorem add_transaction_spec (db : Db) (user : Nat) (tt : String) (a : ℚ)
    (cat desc : String) (now : Now) :
    (¬ (tt = "income" ∨ tt = "expense") →
      add_transaction db user tt a cat desc now = (.error .invalidKind, none, db)) ∧
    ((tt = "income" ∨ tt = "expense") → a ≤ 0 →
      add_transaction db user tt a cat desc now = (.error .invalidAmount, none, db)) ∧
    ((tt = "income" ∨ tt = "expense") → 0 < a →
      ∃ w db', add_transaction db user tt a cat desc now = (.ok (), w, db') ∧
        (⟨db.nextTxnId, tt, a, cat, desc, dateTimeStr now⟩ : TxnRec) ∈
          get_transactions db' user none none none none ∧
        (get_transactions db' user none none none none).length =
          (get_transactions db user none none none none).length + 1) := by
  refine ⟨fun h => ?_, fun h1 h2 => ?_, fun h1 h2 => ?_⟩
  · unfold add_transaction
    rw [if_pos h]
  · unfold add_transaction
    rw [if_neg (not_not_intro h1), if_pos h2]
  · refine
      ⟨check_budget
        { db with
          transactions := db.transactions ++
            [⟨db.nextTxnId, user, tt, a, cat, desc, dateTimeStr now⟩],
          nextTxnId := db.nextTxnId + 1 } user cat a now,
      { db with
        transactions := db.transactions ++
          [⟨db.nextTxnId, user, tt, a, cat, desc, dateTimeStr now⟩],
        nextTxnId := db.nextTxnId + 1 }, ?_, ?_, ?_⟩
    · unfold add_transaction
      rw [if_neg (not_not_intro h1), if_neg (not_le.mpr h2)]
    · exact mem_get_transactions
        ⟨db.nextTxnId, user, tt, a, cat, desc, dateTimeStr now⟩
        { db with
          transactions := db.transactions ++
            [⟨db.nextTxnId, user, tt, a, cat, desc, dateTimeStr now⟩],
          nextTxnId := db.nextTxnId + 1 } user none none none none
        (List.mem_append_right _ (List.mem_singleton_self _))
        (by simp [txnMatches_no_filters])
    · rw [get_transactions_length, get_transactions_length, List.filter_append]
      simp [txnMatches_no_filters]

/-- Closed instance of the success clause of C7's theorem. -/
theorem add_transaction_spec_witness :
    ∃ w db2, add_transaction dbW 1 "expense" 25 "food" "snack" nowW = (.ok (), w, db2) ∧
      (⟨dbW.nextTxnId, "expense", 25, "food", "snack", dateTimeStr nowW⟩ : TxnRec) ∈
        get_transactions db2 1 none none none none ∧
      (get_transactions db2 1 none none none none).length =
        (get_transactions dbW 1 none none none none).length + 1 :=
  (add_transaction_spec dbW 1 "expense" 25 "food" "snack" nowW).2.2
    (Or.inr rfl) (by norm_num)

theorem txn_match_any_iff (db : Db) (user tid : Nat) :
    (db.transactions.any (fun t => t.id == tid && t.user_id == user)) = true ↔
      ∃ t ∈ db.transactions, t.id = tid ∧ t.user_id = user := by
  simp [List.any_eq_true]

theorem update_apply_notFound (db : Db) (user tid : Nat) (am : Option ℚ)
    (cat desc : Option String)
    (h : ¬ ∃ t ∈ db.transactions, t.id = tid ∧ t.user_id = user) :
    update_apply db user tid am cat desc = (.error .notFound, db) := by
  unfold update_apply
  rw [if_neg]
  intro hc
  exact h ((txn_match_any_iff db user tid).mp hc)

theorem update_apply_found (db : Db) (user tid : Nat) (am : Option ℚ)
    (cat desc : Option String)
    (h : ∃ t ∈ db.transactions, t.id = tid ∧ t.user_id = user) :
    update_apply db user tid am cat desc = (.ok (),
      { db with
        transactions := db.transactions.map (fun t =>
          if t.id == tid && t.user_id == user then
            { t with
              amount := am.getD t.amount,
              category := cat.getD t.category,
              description := desc.getD t.description }
          else t) }) := by
  unfold update_apply
  rw [if_pos ((txn_match_any_iff db user tid).mpr h)]

theorem update_transaction_eq_apply (db : Db) (user tid : Nat) (am : Option ℚ)
    (cat desc : Option String) (hpos : ∀ a, am = some a → ¬ a ≤ 0)
    (hpresent : am.isSome ∨ cat.isSome ∨ desc.isSome) :
    update_transaction db user tid am cat desc =
      update_apply db user tid am cat desc := by
  rcases am with _ | a
  · rcases cat with _ | c
    · rcases desc with _ | d
      · simp at hpresent
      · rfl
    · rfl
  · show (if a ≤ 0 then _ else _) = _
    rw [if_neg (hpos a rfl)]


/-- C6: `update_transaction` with no supplied field fails with the no-op
outcome and leaves storage unchanged; a supplied non-positive amount is
rejected (same validation as `add_transaction`) with storage unchanged;
when zero rows match — nonexistent id or a row owned by another user,
indistinguishably — it fails with the one not-found outcome and storage
unchanged; and on success the stored rows are updated pointwise: every
unsupplied field of the matched row and every other row (and the id, owner,
kind and date columns of every row) are unchanged, while supplied fields are
written to the matched row. -/
theorem update_transaction_spec (db : Db) (user tid : Nat) (am : Option ℚ)
    (cat desc : Option String) :
    (am = none → cat = none → desc = none →
      update_transaction db user tid am cat desc = (.error .noOpUpdate, db)) ∧
    (∀ a, am = some a → a ≤ 0 →
      update_transaction db user tid am cat desc = (.error .invalidAmount, db)) ∧
    ((∀ a, am = some a → 0 < a) → (am.isSome ∨ cat.isSome ∨ desc.isSome) →
      (¬ ∃ t ∈ db.transactions, t.id = tid ∧ t.user_id = user) →
      update_transaction db user tid am cat desc = (.error .notFound, db)) ∧
    ((∀ a, am = some a → 0 < a) → (am.isSome ∨ cat.isSome ∨ desc.isSome) →
      (∃ t ∈ db.transactions, t.id = tid ∧ t.user_id = user) →
      ∃ db2, update_transaction db user tid am cat desc = (.ok (), db2) ∧
        db2.users = db.users ∧ db2.budgets = db.budgets ∧
        db2.nextTxnId = db.nextTxnId ∧
        List.Forall₂ (fun t t2 : Txn =>
            t2.id = t.id ∧ t2.user_id = t.user_id ∧ t2.type = t.type ∧
            t2.date = t.date ∧
            (am = none → t2.amount = t.amount) ∧
            (cat = none → t2.category = t.category) ∧
            (desc = none → t2.description = t.description) ∧
            (¬ (t.id = tid ∧ t.user_id = user) → t2 = t) ∧
            (t.id = tid ∧ t.user_id = user →
              t2.amount = am.getD t.amount ∧ t2.category = cat.getD t.category ∧
                t2.description = desc.getD t.description))
          db.transactions db2.transactions) := by
  refine ⟨fun h1 h2 h3 => ?_, fun a ha hle => ?_, fun hpos hpres hno => ?_,
    fun hpos hpres hyes => ?_⟩
  · subst h1; subst h2; subst h3; rfl
  · subst ha
    show (if a ≤ 0 then _ else _) = _
    rw [if_pos hle]
  · rw [update_transaction_eq_apply db user tid am cat desc
      (fun a ha => not_le.mpr (hpos a ha)) hpres]
    exact update_apply_notFound db user tid am cat desc hno
  · refine ⟨{ db with
        transactions := db.transactions.map (fun t =>
          if t.id == tid && t.user_id == user then
            { t with
              amount := am.getD t.amount,
              category := cat.getD t.category,
              description := desc.getD t.description }
          else t) }, ?_, rfl, rfl, rfl, ?_⟩
    · rw [update_transaction_eq_apply db user tid am cat desc
        (fun a ha => not_le.mpr (hpos a ha)) hpres]
      exact update_apply_found db user tid am cat desc hyes
    · rw [List.forall₂_map_right_iff, List.forall₂_same]
      intro t ht
      by_cases hc : t.id == tid && t.user_id == user
      · have hc2 : t.id = tid ∧ t.user_id = user := by
          simpa [Bool.and_eq_true] using hc
        rw [if_pos hc]
        refine ⟨rfl, rfl, rfl, rfl, ?_, ?_, ?_, fun h => absurd hc2 h,
          fun _ => ⟨rfl, rfl, rfl⟩⟩
        · intro h; subst h; rfl
        · intro h; subst h; rfl
        · intro h; subst h; rfl
      · have hc2 : ¬ (t.id = tid ∧ t.user_id = user) := by
          simpa [Bool.and_eq_true] using hc
        rw [if_neg hc]
        exact ⟨rfl, rfl, rfl, rfl, fun _ => rfl, fun _ => rfl, fun _ => rfl,
          fun _ => rfl, fun h => absurd h hc2⟩

/-- Closed instance of the no-op clause of C6's theorem. -/
theorem update_transaction_spec_witness :
    update_transaction dbW 1 2 none none none = (.error .noOpUpdate, dbW) :=
  (update_transaction_spec dbW 1 2 none none none).1 rfl rfl rfl

theorem insertRecs_user (user nid : Nat) (rs : List TxnRec) :
    ∀ t ∈ (insertRecs user nid rs).1, t.user_id = user := by
  induction rs generalizing nid with
  | nil => intro t ht; simp [insertRecs] at ht
  | cons r rs ih =>
    intro t ht
    rcases List.mem_cons.mp ht with h | h
    · rw [h]
    · exact ih (nid + 1) t h

theorem insertRecs_fields (user nid : Nat) (rs : List TxnRec) :
    ((insertRecs user nid rs).1).map Txn.fields = rs.map TxnRec.fields := by
  induction rs generalizing nid with
  | nil => rfl
  | cons r rs ih => simp [insertRecs, ih, Txn.fields, TxnRec.fields]

theorem filter_own_of_other {α} (p : α → Bool) (l : List α) :
    (l.filter (fun a => !(p a))).filter p = [] := by
  rw [List.filter_filter]
  simp

theorem filter_other_of_other {α} (p : α → Bool) (l : List α) :
    (l.filter (fun a => !(p a))).filter (fun a => !(p a)) =
      l.filter (fun a => !(p a)) := by
  rw [List.filter_filter]
  simp

/-- Case analysis of `restore_data`, shared by the ownership and round-trip
claims. -/
theorem restore_data_cases (db : Db) (user : Nat) (doc : BackupDoc) (now : Now) :
    (doc.user_id ≠ user →
      restore_data db user doc now = (.error .ownershipMismatch, db)) ∧
    (doc.user_id = user →
      ∃ db2, restore_data db user doc now = (.ok (), db2) ∧
        db2.users = db.users ∧
        db2.transactions.filter (fun t => !(t.user_id == user)) =
          db.transactions.filter (fun t => !(t.user_id == user)) ∧
        db2.budgets.filter (fun b => !(b.user_id == user)) =
          db.budgets.filter (fun b => !(b.user_id == user)) ∧
        (db2.transactions.filter (fun t => t.user_id == user)).map Txn.fields =
          doc.transactions.map TxnRec.fields ∧
        db2.budgets.filter (fun b => b.user_id == user) =
          doc.budgets.map
            (fun b => ⟨user, b.category, b.amount, now.month, now.year⟩)) := by
  constructor
  · intro h
    unfold restore_data
    rw [if_pos h]
  · intro h
    refine ⟨{ db with
        transactions := db.transactions.filter (fun t => !(t.user_id == user)) ++
          (insertRecs user db.nextTxnId doc.transactions).1,
        budgets := db.budgets.filter (fun b => !(b.user_id == user)) ++
          doc.budgets.map
            (fun b => ⟨user, b.category, b.amount, now.month, now.year⟩),
        nextTxnId := (insertRecs user db.nextTxnId doc.transactions).2 },
      ?_, rfl, ?_, ?_, ?_, ?_⟩
    · unfold restore_data
      rw [if_neg (fun hne => hne h)]
    · rw [List.filter_append, filter_other_of_other]
      have hnil : ((insertRecs user db.nextTxnId doc.transactions).1).filter
          (fun t => !(t.user_id == user)) = [] := by
        rw [List.filter_eq_nil_iff]
        intro t ht
        simp [insertRecs_user user db.nextTxnId doc.transactions t ht]
      rw [hnil, List.append_nil]
    · rw [List.filter_append, filter_other_of_other]
      have hnil : (doc.budgets.map (fun b =>
          (⟨user, b.category, b.amount, now.month, now.year⟩ : Budget))).filter
          (fun b => !(b.user_id == user)) = [] := by
        rw [List.filter_eq_nil_iff]
        intro b hb
        obtain ⟨r, _, rfl⟩ := List.mem_map.mp hb
        simp
      rw [hnil, List.append_nil]
    · rw [List.filter_append, filter_own_of_other, List.nil_append]
      have hall : ((insertRecs user db.nextTxnId doc.transactions).1).filter
          (fun t => t.user_id == user) =
          (insertRecs user db.nextTxnId doc.transactions).1 := by
        rw [List.filter_eq_self]
        intro t ht
        simp [insertRecs_user user db.nextTxnId doc.transactions t ht]
      rw [hall, insertRecs_fields]
    · rw [List.filter_append, filter_own_of_other, List.nil_append]
      rw [List.filter_eq_self]
      intro b hb
      obtain ⟨r, _, rfl⟩ := List.mem_map.mp hb
      simp

/-- C5: `restore_data` fails with the ownership-mismatch outcome — leaving
every transaction and budget untouched — whenever the document's `user_id`
differs from the session user; when they agree it wipes and re-inserts: the
other users' rows are untouched, and the session user's rows afterwards are
exactly the document's contents (transactions up to fresh ids, budgets
re-stamped to the current month/year), never a merge with pre-existing rows. -/
theorem restore_data_spec (db : Db) (user : Nat) (doc : BackupDoc) (now : Now) :
    (doc.user_id ≠ user →
      restore_data db user doc now = (.error .ownershipMismatch, db)) ∧
    (doc.user_id = user →
      ∃ db2, restore_data db user doc now = (.ok (), db2) ∧
        db2.users = db.users ∧
        db2.transactions.filter (fun t => !(t.user_id == user)) =
          db.transactions.filter (fun t => !(t.user_id == user)) ∧
        db2.budgets.filter (fun b => !(b.user_id == user)) =
          db.budgets.filter (fun b => !(b.user_id == user)) ∧
        (db2.transactions.filter (fun t => t.user_id == user)).map Txn.fields =
          doc.transactions.map TxnRec.fields ∧
        db2.budgets.filter (fun b => b.user_id == user) =
          doc.budgets.map
            (fun b => ⟨user, b.category, b.amount, now.month, now.year⟩)) :=
  restore_data_cases db user doc now

/-- Closed instance of the mismatch clause of C5's theorem. -/
theorem restore_data_spec_witness :
    restore_data dbW 1 ⟨2, "2026-10-12 10:30:00", [], []⟩ nowW =
      (.error .ownershipMismatch, dbW) :=
  (restore_data_spec dbW 1 ⟨2, "2026-10-12 10:30:00", [], []⟩ nowW).1 (by decide)

/-- C4: restoring a user's own backup succeeds and reproduces an equivalent
transaction set — the restored rows carry exactly the backed-up
type/amount/category/description/date fields, a permutation of the user's
original rows — while every restored budget keeps its category and amount
but is re-stamped with the month and year current at restore time (`now2`),
whatever the clock (`now`) was when the backup was taken. -/
theorem backup_restore_roundtrip (db : Db) (user : Nat) (now now2 : Now) :
    ∃ db2, restore_data db user (backup_data db user now) now2 = (.ok (), db2) ∧
      (db2.transactions.filter (fun t => t.user_id == user)).map Txn.fields =
        (backup_data db user now).transactions.map TxnRec.fields ∧
      List.Perm
        ((db2.transactions.filter (fun t => t.user_id == user)).map Txn.fields)
        ((db.transactions.filter (fun t => t.user_id == user)).map Txn.fields) ∧
      db2.budgets.filter (fun b => b.user_id == user) =
        (backup_data db user now).budgets.map
          (fun b => ⟨user, b.category, b.amount, now2.month, now2.year⟩) := by
  obtain ⟨db2, heq, hu, hto, hbo, htu, hbu⟩ :=
    (restore_data_cases db user (backup_data db user now) now2).2 rfl
  refine ⟨db2, heq, htu, ?_, hbu⟩
  rw [htu]
  show List.Perm
    ((get_transactions db user none none none none).map TxnRec.fields) _
  unfold get_transactions
  rw [List.map_map]
  have h2 : db.transactions.filter (txnMatches user none none none none) =
      db.transactions.filter (fun t => t.user_id == user) :=
    List.filter_congr (fun t _ => txnMatches_no_filters user t)
  rw [h2]
  exact (sortDateDesc_perm _).map _

theorem txnMatches_user_eq {user : Nat} {sd ed cat tt : Option String}
    {t : Txn} (h : txnMatches user sd ed cat tt t = true) : t.user_id = user := by
  unfold txnMatches at h
  simp only [Bool.and_eq_true, beq_iff_eq] at h
  exact h.1.1.1.1

theorem filter_user_filter_not_own (A B tid : Nat) (hAB : A ≠ B) (l : List Txn) :
    (l.filter (fun t => !(t.id == tid && t.user_id == A))).filter
      (fun t => t.user_id == B) = l.filter (fun t => t.user_id == B) := by
  rw [List.filter_filter]
  apply List.filter_congr
  intro t _
  by_cases h : t.user_id = B
  · simp [h]
    exact Or.inr (fun hc => hAB hc.symm)
  · simp [h]

theorem filter_map_of_fix {α} (p : α → Bool) (f : α → α)
    (h1 : ∀ a, p (f a) = p a) (h2 : ∀ a, p a = true → f a = a) (l : List α) :
    (l.map f).filter p = l.filter p := by
  induction l with
  | nil => rfl
  | cons a as ih =>
    rw [List.map_cons, List.filter_cons, List.filter_cons, h1]
    by_cases hp : p a = true
    · rw [if_pos hp, if_pos hp, h2 a hp, ih]
    · rw [if_neg hp, if_neg hp, ih]

theorem filter_not_cond_filter {α} (q c : α → Bool)
    (h : ∀ a, q a = true → c a = false) (l : List α) :
    (l.filter (fun a => !(c a))).filter q = l.filter q := by
  rw [List.filter_filter]
  apply List.filter_congr
  intro a _
  cases hqa : q a
  · simp
  · simp [h a hqa]

/-- C8: cross-user isolation.  With A and B distinct users and A the session
user: a query returns only records projected from rows owned by A; deleting
or updating (with a valid patch) a transaction id whose rows all belong to B
fails with the same not-found outcome as a nonexistent id and leaves the
database untouched; and none of the mutating operations — update, delete,
add, set_budget, restore — changes B's transaction or budget rows. -/
theorem cross_user_isolation (db : Db) (A B : Nat) (hAB : A ≠ B) :
    (∀ sd ed cat tt r, r ∈ get_transactions db A sd ed cat tt →
      ∃ t ∈ db.transactions, t.user_id = A ∧ t.toRec = r) ∧
    (∀ tid, (∃ t ∈ db.transactions, t.id = tid ∧ t.user_id = B) →
      (∀ t ∈ db.transactions, t.id = tid → t.user_id = B) →
      delete_transaction db A tid = (.error .notFound, db) ∧
      (∀ am cat desc, (∀ a, am = some a → 0 < a) →
        (am.isSome ∨ cat.isSome ∨ desc.isSome) →
        update_transaction db A tid am cat desc = (.error .notFound, db))) ∧
    (∀ tid, (delete_transaction db A tid).2.transactions.filter
        (fun t => t.user_id == B) =
      db.transactions.filter (fun t => t.user_id == B)) ∧
    (∀ tid am cat desc,
      (update_transaction db A tid am cat desc).2.transactions.filter
        (fun t => t.user_id == B) =
      db.transactions.filter (fun t => t.user_id == B)) ∧
    (∀ tt a cat desc now,
      (add_transaction db A tt a cat desc now).2.2.transactions.filter
        (fun t => t.user_id == B) =
      db.transactions.filter (fun t => t.user_id == B)) ∧
    (∀ cat a now, (set_budget db A cat a now).2.budgets.filter
        (fun b => b.user_id == B) =
      db.budgets.filter (fun b => b.user_id == B)) ∧
    (∀ doc now,
      (restore_data db A doc now).2.transactions.filter
          (fun t => t.user_id == B) =
        db.transactions.filter (fun t => t.user_id == B) ∧
      (restore_data db A doc now).2.budgets.filter (fun b => b.user_id == B) =
        db.budgets.filter (fun b => b.user_id == B)) := by
  have hBA : (B == A) = false := by
    simp
    exact fun h => hAB h.symm
  refine ⟨?_, ?_, ?_, ?_, ?_, ?_, ?_⟩
  · intro sd ed cat tt r hr
    obtain ⟨t, ht, hm, hrec⟩ := of_mem_get_transactions db A sd ed cat tt hr
    exact ⟨t, ht, txnMatches_user_eq hm, hrec⟩
  · intro tid hex hall
    have hnoA : ¬ ∃ t ∈ db.transactions, t.id = tid ∧ t.user_id = A := by
      rintro ⟨t, ht, hid, hA⟩
      exact hAB ((hA.symm.trans (hall t ht hid)))
    constructor
    · unfold delete_transaction
      rw [if_neg]
      intro hc
      exact hnoA ((txn_match_any_iff db A tid).mp hc)
    · intro am cat desc hpos hpres
      rw [update_transaction_eq_apply db A tid am cat desc
        (fun a ha => not_le.mpr (hpos a ha)) hpres]
      exact update_apply_notFound db A tid am cat desc hnoA
  · intro tid
    unfold delete_transaction
    split
    · exact filter_not_cond_filter _ _
        (fun t htB => by
          have hB : t.user_id = B := by simpa using htB
          simp [hB, hBA]) db.transactions
    · rfl
  · intro tid am cat desc
    have happ : ∀ am2 : Option ℚ,
        ((update_apply db A tid am2 cat desc).2.transactions).filter
          (fun t => t.user_id == B) =
        db.transactions.filter (fun t => t.user_id == B) := by
      intro am2
      unfold update_apply
      split
      · refine filter_map_of_fix _ _ (fun t => ?_) (fun t htB => ?_) db.transactions
        · by_cases hc : (t.id == tid && t.user_id == A) = true
          · rw [if_pos hc]
          · rw [if_neg hc]
        · rw [if_neg]
          have hB : t.user_id = B := by simpa using htB
          simp [hB, hBA]
      · rfl
    rcases am with _ | a
    · rcases cat with _ | c
      · rcases desc with _ | d
        · rfl
        · exact happ none
      · exact happ none
    · simp only [update_transaction]
      by_cases hle : a ≤ 0
      · rw [if_pos hle]
      · rw [if_neg hle]
        exact happ (some a)
  · intro tt a cat desc now
    unfold add_transaction
    split
    · rfl
    split
    · rfl
    · rw [List.filter_append]
      have hnil : ([(⟨db.nextTxnId, A, tt, a, cat, desc, dateTimeStr now⟩ :
          Txn)]).filter (fun t => t.user_id == B) = [] := by
        simp [List.filter_cons]
        exact fun h => hAB h
      rw [hnil, List.append_nil]
  · intro cat a now
    unfold set_budget
    split
    · rfl
    · rw [List.filter_append]
      rw [filter_not_cond_filter _ _
        (fun b hbB => by
          have hB : b.user_id = B := by simpa using hbB
          simp [hB, hBA]) db.budgets]
      have hnil : ([(⟨A, cat, a, now.month, now.year⟩ : Budget)]).filter
          (fun b => b.user_id == B) = [] := by
        simp [List.filter_cons]
        exact fun h => hAB h
      rw [hnil, List.append_nil]
  · intro doc now
    unfold restore_data
    split
    · exact ⟨rfl, rfl⟩
    · constructor
      · rw [List.filter_append]
        rw [filter_not_cond_filter _ _
          (fun t htB => by
            have hB : t.user_id = B := by simpa using htB
            simp [hB, hBA]) db.transactions]
        have hnil : ((insertRecs A db.nextTxnId doc.transactions).1).filter
            (fun t => t.user_id == B) = [] := by
          rw [List.filter_eq_nil_iff]
          intro t ht
          have := insertRecs_user A db.nextTxnId doc.transactions t ht
          simp [this]
          exact fun h => hAB h
        rw [hnil, List.append_nil]
      · rw [List.filter_append]
        rw [filter_not_cond_filter _ _
          (fun b hbB => by
            have hB : b.user_id = B := by simpa using hbB
            simp [hB, hBA]) db.budgets]
        have hnil : (doc.budgets.map (fun b =>
            (⟨A, b.category, b.amount, now.month, now.year⟩ : Budget))).filter
            (fun b => b.user_id == B) = [] := by
          rw [List.filter_eq_nil_iff]
          intro b hb
          obtain ⟨r, _, rfl⟩ := List.mem_map.mp hb
          simp
          exact fun h => hAB h
        rw [hnil, List.append_nil]

/-- Closed instance of the not-found clause of C8's theorem: user 1 deleting
user 2's transaction id 5 in `dbW`. -/
theorem cross_user_isolation_witness :
    delete_transaction dbW 1 5 = (.error .notFound, dbW) :=
  ((cross_user_isolation dbW 1 2 (by decide)).2.1 5
    ⟨⟨5, 2, "expense", 7, "books", "", "2026-10-03 10:00:00"⟩, by decide,
      rfl, rfl⟩
    (by decide)).1

theorem username_unique {l : List UserRow}
    (h : l.Pairwise (fun a b => a.username ≠ b.username)) :
    ∀ u ∈ l, ∀ v ∈ l, u.username = v.username → u = v := by
  induction l with
  | nil => intro u hu; simp at hu
  | cons x xs ih =>
    rcases List.pairwise_cons.mp h with ⟨hx, hxs⟩
    intro u hu v hv huv
    rcases List.mem_cons.mp hu with rfl | hu2
    · rcases List.mem_cons.mp hv with rfl | hv2
      · rfl
      · exact absurd huv (hx v hv2)
    · rcases List.mem_cons.mp hv with rfl | hv2
      · exact absurd huv.symm (hx u hu2)
      · exact ih hxs u hu2 v hv2 huv

/-- C9: under the users-table uniqueness constraint on usernames, `login`
succeeds with id `i` exactly when a stored row matches the username and the
digest of the supplied password and carries id `i`; in every other case it
returns the one invalid-credentials outcome, so a missing username and a
wrong password are indistinguishable to the caller. -/
theorem login_spec (db : Db) (hashPassword : String → String)
    (username password : String)
    (huniq : db.users.Pairwise (fun a b => a.username ≠ b.username)) :
    (∀ i, login db hashPassword username password = .ok i ↔
      ∃ u ∈ db.users, u.username = username ∧
        u.password = hashPassword password ∧ u.id = i) ∧
    ((¬ ∃ u ∈ db.users, u.username = username ∧
        u.password = hashPassword password) →
      login db hashPassword username password = .error .invalidCredentials) := by
  constructor
  · intro i
    constructor
    · intro h
      unfold login at h
      cases hfind : db.users.find? (fun u =>
          u.username == username && u.password == hashPassword password) with
      | none => rw [hfind] at h; exact absurd h (by simp)
      | some u =>
        rw [hfind] at h
        have hmem := List.mem_of_find?_eq_some hfind
        have hp := List.find?_some hfind
        simp only [Bool.and_eq_true, beq_iff_eq] at hp
        have hid : u.id = i := by
          have := Except.ok.inj h
          exact this
        exact ⟨u, hmem, hp.1, hp.2, hid⟩
    · rintro ⟨u, hu, hun, hpw, hid⟩
      have hp : (fun v : UserRow =>
          v.username == username && v.password == hashPassword password) u = true := by
        simp [hun, hpw]
      have hsome : (db.users.find? (fun v =>
          v.username == username && v.password == hashPassword password)).isSome := by
        rw [List.find?_isSome]
        exact ⟨u, hu, hp⟩
      obtain ⟨v, hv⟩ := Option.isSome_iff_exists.mp hsome
      have hvmem := List.mem_of_find?_eq_some hv
      have hvp := List.find?_some hv
      simp only [Bool.and_eq_true, beq_iff_eq] at hvp
      have : v = u := username_unique huniq v hvmem u hu (hvp.1.trans hun.symm)
      unfold login
      rw [hv, this]
      exact congrArg Except.ok hid
  · intro hno
    unfold login
    rw [List.find?_eq_none.mpr]
    intro x hx hpx
    simp only [Bool.and_eq_true, beq_iff_eq] at hpx
    exact hno ⟨x, hx, hpx.1, hpx.2⟩

/-- Closed instance of C9's theorem: a digest under which alice's stored row
matches, so login succeeds with her id. -/
theorem login_spec_witness :
    login dbW (fun _ => "ha") "alice" "pw" = .ok 1 :=
  ((login_spec dbW (fun s => "ha") "alice" "pw" (by decide)).1 1).mpr
    ⟨⟨1, "alice", "ha"⟩, by decide, rfl, rfl, rfl⟩

end Finance
